import Mathlib

/-!
# Power-Tabs background listener — verification development

A shallow embedding of `src/background/listen.js`, the background script of
the power-tabs extension, together with proofs about its behaviour.

Modelling conventions:
* Browser-session state touched by the script is gathered in one `State`
  record: the in-memory exemption store (`_exemptTabs`), the persisted
  settings store (`browser.storage.local`), the session tab values
  (`browser.sessions` key `"group-id"`), the session window values
  (key `"active-group-id"`), and the set of connected ports (`_ports`,
  keyed by window id).
* Event handlers become state transformers.  Calls the script makes into
  the browser that do not feed back into its own state
  (`browser.tabs.update`, `browser.history.deleteUrl`,
  `port.postMessage`) are recorded as an ordered list of `Effect`s
  returned alongside the new state, so ordering claims can be stated.
* JavaScript `undefined` results of lookups are `Option.none`; JavaScript
  string truthiness (`if(!groupId)`) is modelled explicitly (`none` and
  the empty string are falsy).
* `_exemptTabs` is a JS `Map` that the script manipulates through *two*
  distinct mechanisms: the `Map` methods `has`/`delete`, which act on the
  map's internal entry table, and square-bracket indexing
  (`_exemptTabs[tabId]`), which acts on ordinary object properties of the
  `Map` object.  These are disjoint stores in JavaScript, so the
  embedding keeps both: `entries` (internal map keys — values are never
  read by the script, so only key presence is tracked) and `props`
  (object properties).
* URL strings handed to `encodeURIComponent` are modelled as their UTF-8
  byte sequences (`List Nat`, each `< 256`); `encodeURIComponent`
  percent-encodes exactly the UTF-8 bytes outside its unreserved set,
  and `decodeURIComponent` is modelled at the same byte level as
  percent-decoding (case-insensitive hex), `none` on a malformed
  escape (the thrown `URIError`).
* Hostname extraction (`new URL(url).hostname`) and
  `browser.extension.getURL` are host-browser facilities, passed in as
  parameters `hostOf` and `extURL`.
-/

namespace PowerTabs

/-- A persisted per-domain policy record, stored under key
`"page:" ++ domain` in `browser.storage.local`. -/
structure PageSettings where
  group : String
  neverAsk : Bool
deriving DecidableEq

/-- The `_exemptTabs` JS `Map`, split into its two stores (see module
comment): `entries` are the internal map keys reached by `Map.has` /
`Map.delete` (the script never calls `Map.set`, and never reads an entry
value, so only key presence is modelled); `props` are the object
properties reached by `_exemptTabs[tabId]` indexing, each holding a JS
`Set` of host names (modelled as a duplicate-free list in insertion
order). -/
structure ExemptStore where
  entries : Int → Bool
  props : Int → Option (List String)

/-- The empty `_exemptTabs` map: `new Map()` has no entries and no
indexed properties. -/
def ExemptStore.empty : ExemptStore :=
  { entries := fun _ => false, props := fun _ => none }

/-- `exemptTab(tabId, domainName)` from listen.js.  The `Map.has` test
consults the internal entry table, while both assignments go to object
properties, so when no internal entry exists (which is always the case —
nothing in the script calls `Map.set`) the property is overwritten with a
fresh one-element `Set`.  If an internal entry existed while the property
were absent, `_exemptTabs[tabId].add(...)` would throw a `TypeError`
(calling `.add` on `undefined`); that outcome is `none`. -/
def exemptTab (s : ExemptStore) (tabId : Int) (domainName : String) :
    Option ExemptStore :=
  if s.entries tabId then
    match s.props tabId with
    | some set =>
        some { s with props := fun t =>
                 if t = tabId then
                   some (if domainName ∈ set then set else set ++ [domainName])
                 else s.props t }
    | none => none
  else
    some { s with props := fun t =>
             if t = tabId then some [domainName] else s.props t }

/-- `isExempt(tabId, domainName)` from listen.js: reads the object
property `_exemptTabs[tabId]` (`undefined`, hence falsy, when absent) and
tests `set.has(domainName)`. -/
def isExempt (s : ExemptStore) (tabId : Int) (domainName : String) : Bool :=
  match s.props tabId with
  | some set => set.contains domainName
  | none => false

/-- An outward action issued by the script: a tab navigation
(`browser.tabs.update` with `loadReplace`), a history deletion
(`browser.history.deleteUrl`), or a message posted to the port of one
connected window. -/
inductive Effect where
  | updateTab (tabId : Int) (url : String) (loadReplace : Bool)
  | deleteHistoryUrl (url : String)
  | portPost (windowId : Int) (method : String) (tabId : Int) (groupId : String)
deriving DecidableEq

/-- The state the background script reads and writes. -/
structure State where
  /-- the in-memory `_exemptTabs` map -/
  exemptTabs : ExemptStore
  /-- `browser.storage.local`, restricted to the `page:` policy records -/
  storage : String → Option PageSettings
  /-- `browser.sessions` per-tab value under key `"group-id"` -/
  tabValues : Int → Option String
  /-- `browser.sessions` per-window value under key `"active-group-id"` -/
  windowValues : Int → Option String
  /-- window ids with a connected port (`_ports` keys) -/
  ports : List Int

/-- `postMessage(msg)` from listen.js: posts one message to every
connected port, in registry order. -/
def postMessage (st : State) (method : String) (tabId : Int) (groupId : String) :
    List Effect :=
  st.ports.map (fun w => Effect.portPost w method tabId groupId)

/-- `redirectTab(message)` from listen.js: issues
`browser.tabs.update(tabId, {loadReplace: true, url: redirectUrl})` and
then — in the `.then` continuation, i.e. only after the update call has
resolved — `browser.history.deleteUrl({url: originalUrl})`.  It touches
no script state, so it is the ordered effect list alone. -/
def redirectTab (tabId : Int) (redirectUrl originalUrl : String) : List Effect :=
  [Effect.updateTab tabId redirectUrl true,
   Effect.deleteHistoryUrl originalUrl]

/-- `moveTabToGroup(message)` from listen.js: writes the session tab
value `"group-id" := groupId`, performs `redirectTab`, then broadcasts a
`moveTabGroup` notification to every connected port. -/
def moveTabToGroup (st : State) (tabId : Int) (groupId : String)
    (redirectUrl originalUrl : String) : State × List Effect :=
  let st1 := { st with
    tabValues := fun t => if t = tabId then some groupId else st.tabValues t }
  (st1, redirectTab tabId redirectUrl originalUrl ++
        postMessage st1 "moveTabGroup" tabId groupId)

/-- A control message arriving on a connected port
(`onPortMessage`'s two recognised methods). -/
inductive PortInMsg where
  | invalidateExempt (tabId : Int)
  | activeGroup (windowId : Int) (groupId : String)

/-- `onPortMessage(message)` from listen.js.  `invalidateExempt` runs
`_exemptTabs.delete(message.tabId)` — a `Map` method, which removes an
internal entry and leaves object properties untouched.  `activeGroup`
writes the window session value. -/
def onPortMessage (st : State) : PortInMsg → State
  | .invalidateExempt tabId =>
      { st with exemptTabs := { st.exemptTabs with
          entries := fun t => if t = tabId then false
                     else st.exemptTabs.entries t } }
  | .activeGroup windowId groupId =>
      { st with windowValues := fun w => if w = windowId then some groupId
                else st.windowValues w }

/-- `toggleNeverAsk(domainName, value)` from listen.js: reads the policy
record under `"page:" ++ domainName`; if absent it returns with no write
("perplexing so let's ignore"), otherwise it persists the record with
`neverAsk := value`. -/
def toggleNeverAsk (st : State) (domainName : String) (value : Bool) : State :=
  let key := "page:" ++ domainName
  match st.storage key with
  | none => st
  | some s => { st with
      storage := fun k => if k = key then some { s with neverAsk := value }
                 else st.storage k }

/-- `onTabCreated(tabInfo)` from listen.js: reads the window's
`"active-group-id"` session value and stores it as the new tab's
`"group-id"` (storing the absent value when the window has none, which a
later `getTabValue` reports as absent again). -/
def onTabCreated (st : State) (tabId windowId : Int) : State :=
  { st with tabValues := fun t => if t = tabId then st.windowValues windowId
            else st.tabValues t }

/-! ## URL percent-encoding (`encodeURL`) at the UTF-8 byte level -/

/-- The bytes `encodeURIComponent` leaves unescaped: ASCII letters,
digits, and `- _ . ! ~ * ' ( )`. -/
def isUnescapedByte (b : Nat) : Bool :=
  (65 ≤ b && b ≤ 90) || (97 ≤ b && b ≤ 122) || (48 ≤ b && b ≤ 57) ||
  b ∈ [45, 95, 46, 33, 126, 42, 39, 40, 41]

/-- Upper-case hex digit byte for a nibble (`encodeURIComponent` emits
upper-case hex escapes). -/
def hexDigitUpper (n : Nat) : Nat :=
  if n < 10 then 48 + n else 55 + n

/-- Lower-case hex digit byte for a nibble (`Number.prototype.toString(16)`
in the `replace` callback emits lower-case hex). -/
def hexDigitLower (n : Nat) : Nat :=
  if n < 10 then 48 + n else 87 + n

/-- `encodeURIComponent(url)` on the URL's UTF-8 bytes: unreserved bytes
pass through, every other byte becomes `%` followed by two upper-case hex
digits. -/
def encodeURIComponentBytes (bytes : List Nat) : List Nat :=
  bytes.flatMap (fun b =>
    if isUnescapedByte b then [b]
    else [37, hexDigitUpper (b / 16), hexDigitUpper (b % 16)])

/-- The `.replace(/[!'()*]/g, c => "%" + c.charCodeAt(0).toString(16))`
step of `encodeURL`: rewrites each of the five bytes `! ' ( ) *` left
alone by `encodeURIComponent` into a lower-case percent escape. -/
def escapeExtra (bytes : List Nat) : List Nat :=
  bytes.flatMap (fun b =>
    if b ∈ [33, 39, 40, 41, 42] then
      [37, hexDigitLower (b / 16), hexDigitLower (b % 16)]
    else [b])

/-- `encodeURL(url)` from listen.js, on the URL's UTF-8 bytes. -/
def encodeURL (bytes : List Nat) : List Nat :=
  escapeExtra (encodeURIComponentBytes bytes)

/-- Value of a hex-digit byte, accepting both cases as
`decodeURIComponent` does; `none` for a non-hex byte. -/
def hexVal (b : Nat) : Option Nat :=
  if 48 ≤ b && b ≤ 57 then some (b - 48)
  else if 65 ≤ b && b ≤ 70 then some (b - 55)
  else if 97 ≤ b && b ≤ 102 then some (b - 87)
  else none

/-- Standard percent-decoding (`decodeURIComponent`) at the UTF-8 byte
level: `%` followed by two hex digits yields that byte, any other byte
passes through, and a malformed escape is the thrown `URIError`
(`none`). -/
def percentDecode : List Nat → Option (List Nat)
  | [] => some []
  | b :: rest =>
    if b = 37 then
      match rest with
      | h :: l :: rest2 =>
        match hexVal h, hexVal l with
        | some hv, some lv =>
            (percentDecode rest2).map (fun r => (16 * hv + lv) :: r)
        | _, _ => none
      | _ => none
    else (percentDecode rest).map (fun r => b :: r)

/-- UTF-8 encoding of a code point. -/
def utf8Bytes (n : Nat) : List Nat :=
  if n < 128 then [n]
  else if n < 2048 then [192 + n / 64, 128 + n % 64]
  else if n < 65536 then
    [224 + n / 4096, 128 + (n / 64) % 64, 128 + n % 64]
  else
    [240 + n / 262144, 128 + (n / 4096) % 64, 128 + (n / 64) % 64,
     128 + n % 64]

/-- The UTF-8 bytes of a string. -/
def strBytes (s : String) : List Nat :=
  s.data.flatMap (fun c => utf8Bytes c.toNat)

/-- A byte list (all ASCII in the uses below) read back as a string. -/
def bytesToStr (l : List Nat) : String :=
  String.mk (l.map (fun b => Char.ofNat b))

/-- `encodeURL` as a string-to-string function, via UTF-8 bytes. -/
def encodeURLStr (s : String) : String :=
  bytesToStr (encodeURL (strBytes s))

/-! ## The navigation decision (`onBeforeRequest`) -/

/-- The value `onBeforeRequest` resolves with: `{}` (proceed) or
`{redirectUrl: url}`. -/
inductive Decision where
  | proceed
  | redirect (url : String)
deriving DecidableEq

/-- The fields of the `onBeforeRequest` details object the handler
reads. -/
structure NavOptions where
  frameId : Nat
  tabId : Int
  url : String

/-- `onBeforeRequest(options)` from listen.js as a state transformer
returning the decision and the state it leaves behind.

`hostOf` stands for `new URL(url).hostname` and `extURL` for
`browser.extension.getURL("/background/confirm.html")`, both host-browser
facilities.  `browser.tabs.get(options.tabId)` yields a tab whose `id` is
`options.tabId`, so `tab.id` in the exemption check is `options.tabId`.
`if(!groupId)` is JS truthiness on the session value: absent (`none`) and
the empty string both proceed. -/
def onBeforeRequest (hostOf : String → String) (extURL : String)
    (st : State) (o : NavOptions) : Decision × State :=
  if o.frameId != 0 || o.tabId == -1 then (.proceed, st)
  else
    let domainName := hostOf o.url
    let key := "page:" ++ domainName
    if isExempt st.exemptTabs o.tabId domainName then (.proceed, st)
    else
      match st.storage key with
      | none => (.proceed, st)
      | some settings =>
        if settings.neverAsk then (.proceed, st)
        else
          match st.tabValues o.tabId with
          | none => (.proceed, st)
          | some groupId =>
            if groupId = "" then (.proceed, st)
            else if groupId ≠ settings.group then
              (.redirect (extURL ++ "?url=" ++ encodeURLStr o.url ++
                 "&groupId=" ++ settings.group ++ "&tabId=" ++
                 toString o.tabId), st)
            else (.proceed, st)

/-! ## Concrete states used to exercise the theorems -/

/-- A state with nothing stored and nothing connected. -/
def stEmpty : State :=
  { exemptTabs := ExemptStore.empty
    storage := fun _ => none
    tabValues := fun _ => none
    windowValues := fun _ => none
    ports := [] }

/-- A state for exercising the redirect branch: tab 7 in group `g1`,
`a.com` governed by group `g2`. -/
def stMismatch : State :=
  { stEmpty with
    storage := fun k => if k = "page:a.com" then some ⟨"g2", false⟩ else none
    tabValues := fun t => if t = 7 then some "g1" else none }

/-- A state whose `a.com` policy record matches tab 7's own group. -/
def stSameGroup : State :=
  { stMismatch with
    storage := fun k => if k = "page:a.com" then some ⟨"g1", false⟩ else none }

/-- A state whose `a.com` policy record has `neverAsk := true`. -/
def stNeverAsk : State :=
  { stMismatch with
    storage := fun k => if k = "page:a.com" then some ⟨"g2", true⟩ else none }

/-- What `encodeURL` makes of one input byte, in closed form: the five
extra characters become lower-case escapes, other unreserved bytes pass
through, and everything else becomes an upper-case escape. -/
def encByteFull (b : Nat) : List Nat :=
  if isUnescapedByte b then
    if b ∈ [33, 39, 40, 41, 42] then
      [37, hexDigitLower (b / 16), hexDigitLower (b % 16)]
    else [b]
  else [37, hexDigitUpper (b / 16), hexDigitUpper (b % 16)]

/-! ## Theorems -/

/-- C9: `redirectTab` issues the new navigation and only afterwards
deletes the intercepted URL's history entry: its effect trace contains
the `tabs.update` with no history deletion anywhere before it, and the
`history.deleteUrl` of the original URL strictly after it. -/
theorem redirectTab_issue_then_delete (tabId : Int)
    (redirectUrl originalUrl : String) :
    ∃ pre post,
      redirectTab tabId redirectUrl originalUrl =
        pre ++ Effect.updateTab tabId redirectUrl true :: post ∧
      (∀ e ∈ pre, ∀ u, e ≠ Effect.deleteHistoryUrl u) ∧
      Effect.deleteHistoryUrl originalUrl ∈ post :=
  ⟨[], [Effect.deleteHistoryUrl originalUrl], rfl, by simp, by simp⟩

/-- C8: `moveTabToGroup` is idempotent.  After either of two successive
calls with the same arguments the tab's `"group-id"` session value is
the requested group; the second call leaves the whole state exactly as
the first call left it, and its effect trace re-broadcasts the
`moveTabGroup` notification to every connected channel (after re-issuing
the redirect). -/
theorem moveTabToGroup_idempotent (st : State) (tabId : Int)
    (groupId redirectUrl originalUrl : String) :
    ((moveTabToGroup st tabId groupId redirectUrl originalUrl).1.tabValues
        tabId = some groupId) ∧
    ((moveTabToGroup
        (moveTabToGroup st tabId groupId redirectUrl originalUrl).1
        tabId groupId redirectUrl originalUrl).1 =
      (moveTabToGroup st tabId groupId redirectUrl originalUrl).1) ∧
    ((moveTabToGroup
        (moveTabToGroup st tabId groupId redirectUrl originalUrl).1
        tabId groupId redirectUrl originalUrl).2 =
      redirectTab tabId redirectUrl originalUrl ++
        (moveTabToGroup st tabId groupId redirectUrl
          originalUrl).1.ports.map
          (fun w => Effect.portPost w "moveTabGroup" tabId groupId)) := by
  have hvals : (fun t => if t = tabId then some groupId
      else if t = tabId then some groupId else st.tabValues t) =
      (fun t => if t = tabId then some groupId else st.tabValues t) := by
    funext t
    by_cases h : t = tabId <;> simp [h]
  refine ⟨by simp [moveTabToGroup], ?_, ?_⟩
  · simp only [moveTabToGroup]
    rw [hvals]
  · simp only [moveTabToGroup, postMessage]

/-- C7: a `neverAsk` toggle for a domain with no persisted policy record
is silently ignored: `toggleNeverAsk` returns with the state (in
particular the settings store) exactly unchanged. -/
theorem toggleNeverAsk_absent (st : State) (domainName : String) (v : Bool)
    (h : st.storage ("page:" ++ domainName) = none) :
    toggleNeverAsk st domainName v = st := by
  simp [toggleNeverAsk, h]

/-- Witness for C7 at a concrete input: the empty store has no record for
`example.com`, and the toggle leaves the state unchanged. -/
theorem toggleNeverAsk_absent_witness :
    toggleNeverAsk stEmpty "example.com" true = stEmpty :=
  toggleNeverAsk_absent stEmpty "example.com" true rfl

/-- C10: the navigation decision is read-only.  Whatever `onBeforeRequest`
decides, the state it leaves behind has the same exemption store, tab
group assignments, window active-group values, persisted settings and
port registry it started with. -/
theorem onBeforeRequest_readOnly (hostOf : String → String) (extURL : String)
    (st : State) (o : NavOptions) :
    (onBeforeRequest hostOf extURL st o).2.exemptTabs = st.exemptTabs ∧
    (onBeforeRequest hostOf extURL st o).2.tabValues = st.tabValues ∧
    (onBeforeRequest hostOf extURL st o).2.windowValues = st.windowValues ∧
    (onBeforeRequest hostOf extURL st o).2.storage = st.storage ∧
    (onBeforeRequest hostOf extURL st o).2.ports = st.ports := by
  have h : (onBeforeRequest hostOf extURL st o).2 = st := by
    simp only [onBeforeRequest]
    repeat' split
    all_goals rfl
  rw [h]
  exact ⟨rfl, rfl, rfl, rfl, rfl⟩

/-- C4: a navigation to a domain with no `PageSettings` record always
proceeds, whatever the tab, its group, and the exemption state. -/
theorem onBeforeRequest_noRecord (hostOf : String → String) (extURL : String)
    (st : State) (o : NavOptions)
    (h : st.storage ("page:" ++ hostOf o.url) = none) :
    (onBeforeRequest hostOf extURL st o).1 = .proceed := by
  simp only [onBeforeRequest]
  repeat' split
  all_goals simp_all

/-- Witness for C4 at a concrete input: tab 7 carries group `g1` and the
store has no record for `a.com`, yet the navigation proceeds. -/
theorem onBeforeRequest_noRecord_witness :
    (onBeforeRequest (fun _ => "a.com") "moz-extension://x/confirm.html"
      { stEmpty with tabValues := fun t => if t = 7 then some "g1" else none }
      ⟨0, 7, "https://a.com/"⟩).1 = .proceed :=
  onBeforeRequest_noRecord (fun _ => "a.com")
    "moz-extension://x/confirm.html"
    { stEmpty with tabValues := fun t => if t = 7 then some "g1" else none }
    ⟨0, 7, "https://a.com/"⟩ rfl

/-- C1: the core decision.  For a top-level navigation (`frameId = 0`,
real tab) by a tab whose session group is `g1`, with no exemption held
for the destination domain: a policy record `{group := g2, neverAsk :=
false}` with `g2 ≠ g1` yields a redirect to the confirmation URL carrying
`groupId=g2`; a record with `group := g1` yields proceed; a record with
`neverAsk := true` yields proceed. -/
theorem onBeforeRequest_policy (hostOf : String → String) (extURL : String)
    (st : State) (o : NavOptions) (g1 g2 : String)
    (hframe : o.frameId = 0) (htab : o.tabId ≠ -1)
    (hexempt : isExempt st.exemptTabs o.tabId (hostOf o.url) = false)
    (hgroup : st.tabValues o.tabId = some g1) (hg1 : g1 ≠ "") :
    (st.storage ("page:" ++ hostOf o.url) = some ⟨g2, false⟩ → g1 ≠ g2 →
      (onBeforeRequest hostOf extURL st o).1 =
        .redirect (extURL ++ "?url=" ++ encodeURLStr o.url ++ "&groupId=" ++
          g2 ++ "&tabId=" ++ toString o.tabId)) ∧
    (st.storage ("page:" ++ hostOf o.url) = some ⟨g1, false⟩ →
      (onBeforeRequest hostOf extURL st o).1 = .proceed) ∧
    (st.storage ("page:" ++ hostOf o.url) = some ⟨g2, true⟩ →
      (onBeforeRequest hostOf extURL st o).1 = .proceed) := by
  refine ⟨fun hs hne => ?_, fun hs => ?_, fun hs => ?_⟩ <;>
    simp [onBeforeRequest, hframe, htab, hexempt, hgroup, hg1, hs]
  simp [hne]

/-- Witness for C1 at concrete inputs: tab 7 (group `g1`) navigating to
`https://a.com/p` is redirected to the confirmation URL under a `g2`
record, proceeds under a `g1` record, and proceeds under `neverAsk`. -/
theorem onBeforeRequest_policy_witness :
    ((onBeforeRequest (fun _ => "a.com") "ext://c" stMismatch
        ⟨0, 7, "https://a.com/p"⟩).1 =
      .redirect ("ext://c" ++ "?url=" ++ encodeURLStr "https://a.com/p" ++
        "&groupId=" ++ "g2" ++ "&tabId=" ++ toString (7 : Int))) ∧
    ((onBeforeRequest (fun _ => "a.com") "ext://c" stSameGroup
        ⟨0, 7, "https://a.com/p"⟩).1 = .proceed) ∧
    ((onBeforeRequest (fun _ => "a.com") "ext://c" stNeverAsk
        ⟨0, 7, "https://a.com/p"⟩).1 = .proceed) :=
  ⟨(onBeforeRequest_policy (fun _ => "a.com") "ext://c" stMismatch
      ⟨0, 7, "https://a.com/p"⟩ "g1" "g2" rfl (by decide) rfl rfl
      (by decide)).1 rfl (by decide),
   (onBeforeRequest_policy (fun _ => "a.com") "ext://c" stSameGroup
      ⟨0, 7, "https://a.com/p"⟩ "g1" "g2" rfl (by decide) rfl rfl
      (by decide)).2.1 rfl,
   (onBeforeRequest_policy (fun _ => "a.com") "ext://c" stNeverAsk
      ⟨0, 7, "https://a.com/p"⟩ "g1" "g2" rfl (by decide) rfl rfl
      (by decide)).2.2 rfl⟩

/-- C6: a tab created in window `w` inherits `w`'s current active group
as its own session group; when `w` has no active-group value the new tab
is left ungoverned, and every navigation it makes proceeds. -/
theorem onTabCreated_inherits (st : State) (tabId windowId : Int) :
    ((onTabCreated st tabId windowId).tabValues tabId =
      st.windowValues windowId) ∧
    (st.windowValues windowId = none →
      ∀ (hostOf : String → String) (extURL : String) (o : NavOptions),
        o.tabId = tabId →
        (onBeforeRequest hostOf extURL (onTabCreated st tabId windowId)
          o).1 = .proceed) := by
  refine ⟨by simp [onTabCreated], fun hw hostOf extURL o ho => ?_⟩
  have hung : (onTabCreated st tabId windowId).tabValues o.tabId = none := by
    simp [onTabCreated, ho, hw]
  simp only [onBeforeRequest]
  repeat' split
  all_goals simp_all

/-- Witness for C6 at a concrete input: window 5 has no active group, so
the tab 7 it spawns stays ungoverned and its navigation to `a.com`
proceeds even though `a.com` is governed by group `g2`. -/
theorem onTabCreated_inherits_witness :
    ((onTabCreated { stMismatch with tabValues := fun _ => none } 7
        5).tabValues 7 = none) ∧
    ((onBeforeRequest (fun _ => "a.com") "ext://c"
        (onTabCreated { stMismatch with tabValues := fun _ => none } 7 5)
        ⟨0, 7, "https://a.com/p"⟩).1 = .proceed) :=
  ⟨(onTabCreated_inherits { stMismatch with tabValues := fun _ => none }
      7 5).1,
   (onTabCreated_inherits { stMismatch with tabValues := fun _ => none }
      7 5).2 rfl (fun _ => "a.com") "ext://c" ⟨0, 7, "https://a.com/p"⟩
      rfl⟩

/-- C2 (code bug): granting an exemption and then processing
`invalidateExempt` does *not* restore interception.  In `stMismatch` the
group-mismatched navigation of tab 1 to `a.com` redirects; but after
`exemptTab(1, "a.com")` followed by the `invalidateExempt` message —
whose `_exemptTabs.delete(tabId)` removes a `Map` entry while the grant
lives in an object property — the same navigation still proceeds,
where the intended behaviour is to redirect again. -/
theorem invalidateExempt_is_noop :
    ((onBeforeRequest (fun _ => "a.com") "ext://c"
        { stMismatch with tabValues := fun t => if t = 1 then some "g1"
            else none }
        ⟨0, 1, "https://a.com/p"⟩).1 =
      .redirect ("ext://c" ++ "?url=" ++ encodeURLStr "https://a.com/p" ++
        "&groupId=" ++ "g2" ++ "&tabId=" ++ toString (1 : Int))) ∧
    ((exemptTab ExemptStore.empty 1 "a.com").map (fun es =>
        (onBeforeRequest (fun _ => "a.com") "ext://c"
          (onPortMessage
            { stMismatch with
              exemptTabs := es
              tabValues := fun t => if t = 1 then some "g1" else none }
            (.invalidateExempt 1))
          ⟨0, 1, "https://a.com/p"⟩).1) = some .proceed) :=
  ⟨rfl, rfl⟩

/-- C3 (code bug): a second grant for the same tab overwrites the first.
`exemptTab` tests `Map.has` — which never sees the object properties the
grants are stored in — so `exemptTab(1, "a.com")` then
`exemptTab(1, "b.com")` leaves `isExempt(1, "a.com") = false` (and only
`"b.com"` exempt), where the intended behaviour is both `true`. -/
theorem exemptTab_second_grant_overwrites :
    ((exemptTab ExemptStore.empty 1 "a.com").bind (fun e1 =>
        exemptTab e1 1 "b.com")).map (fun e2 =>
      (isExempt e2 1 "a.com", isExempt e2 1 "b.com")) =
    some (false, true) := rfl

/-! ### Round-trip of `encodeURL` against `decodeURIComponent` (C5) -/

/-- Decoding inverts an upper-case hex escape digit. -/
theorem hexVal_hexDigitUpper : ∀ x, x < 16 →
    hexVal (hexDigitUpper x) = some x := by decide

/-- Decoding inverts a lower-case hex escape digit. -/
theorem hexVal_hexDigitLower : ∀ x, x < 16 →
    hexVal (hexDigitLower x) = some x := by decide

/-- Upper-case hex digits are none of the five extra characters, so the
`replace` pass leaves upper-case escapes alone. -/
theorem hexDigitUpper_not_extra : ∀ x, x < 16 →
    hexDigitUpper x ∉ [33, 39, 40, 41, 42] := by decide

/-- `%` is none of the five extra characters. -/
theorem percent_not_extra : (37 : Nat) ∉ [33, 39, 40, 41, 42] := by decide

/-- `encodeURL` maps each input byte below 256 to its closed form
`encByteFull`, distributing over the list. -/
theorem encodeURL_cons (b : Nat) (hb : b < 256) (rest : List Nat) :
    encodeURL (b :: rest) = encByteFull b ++ encodeURL rest := by
  simp only [encodeURL, encodeURIComponentBytes, List.flatMap_cons,
    escapeExtra, List.flatMap_append]
  congr 1
  by_cases h1 : isUnescapedByte b
  · simp [encByteFull, h1]
  · have hhi := hexDigitUpper_not_extra (b / 16)
      (Nat.div_lt_of_lt_mul (by omega))
    have hlo := hexDigitUpper_not_extra (b % 16) (Nat.mod_lt b (by omega))
    simp only [List.mem_cons, List.not_mem_nil, or_false, not_or] at hhi hlo
    simp [encByteFull, h1, hhi.1, hhi.2.1, hhi.2.2.1, hhi.2.2.2.1,
      hhi.2.2.2.2, hlo.1, hlo.2.1, hlo.2.2.1, hlo.2.2.2.1, hlo.2.2.2.2]

/-- Percent-decoding a well-formed escape `% h l` consumes it into the
byte `16 * hv + lv`. -/
theorem percentDecode_escape (h l : Nat) (hv lv : Nat) (rest : List Nat)
    (hh : hexVal h = some hv) (hl : hexVal l = some lv) :
    percentDecode (37 :: h :: l :: rest) =
      (percentDecode rest).map (fun r => (16 * hv + lv) :: r) := by
  rw [percentDecode.eq_2, if_pos rfl]
  simp [hh, hl]

/-- Percent-decoding passes a non-`%` byte through. -/
theorem percentDecode_literal (b : Nat) (hb : b ≠ 37) (rest : List Nat) :
    percentDecode (b :: rest) = (percentDecode rest).map (fun r => b :: r) := by
  rcases rest with _ | ⟨h, _ | ⟨l, rest2⟩⟩
  · rw [percentDecode.eq_3 b [] (by intro _ _ _ hc; cases hc), if_neg hb]
  · rw [percentDecode.eq_3 b [h] (by intro _ _ _ hc; simp at hc), if_neg hb]
  · rw [percentDecode.eq_2, if_neg hb]

/-- Percent-decoding inverts the closed-form encoding of any byte below
256, byte by byte. -/
theorem percentDecode_encByteFull (b : Nat) (hb : b < 256)
    (tail : List Nat) :
    percentDecode (encByteFull b ++ tail) =
      (percentDecode tail).map (fun r => b :: r) := by
  have hdiv : b / 16 < 16 := Nat.div_lt_of_lt_mul (by omega)
  have hmod : b % 16 < 16 := Nat.mod_lt b (by omega)
  have hrecon : 16 * (b / 16) + b % 16 = b := Nat.div_add_mod b 16
  by_cases h1 : isUnescapedByte b
  · by_cases h2 : b ∈ [33, 39, 40, 41, 42]
    · rw [show encByteFull b ++ tail =
          37 :: hexDigitLower (b / 16) :: hexDigitLower (b % 16) :: tail by
          simp [encByteFull, h1, h2]]
      rw [percentDecode_escape _ _ _ _ _
        (hexVal_hexDigitLower _ hdiv) (hexVal_hexDigitLower _ hmod), hrecon]
    · have hb37 : b ≠ 37 := by
        intro hcontra
        rw [hcontra] at h1
        exact absurd h1 (by decide)
      rw [show encByteFull b ++ tail = b :: tail by simp [encByteFull, h1, h2]]
      exact percentDecode_literal b hb37 tail
  · rw [show encByteFull b ++ tail =
        37 :: hexDigitUpper (b / 16) :: hexDigitUpper (b % 16) :: tail by
        simp [encByteFull, h1]]
    rw [percentDecode_escape _ _ _ _ _
      (hexVal_hexDigitUpper _ hdiv) (hexVal_hexDigitUpper _ hmod), hrecon]

/-- C5: round-trip.  For every URL, taken as its UTF-8 byte sequence
(each byte below 256) — in particular ones containing `! ' ( ) *` —
`encodeURL` followed by standard percent-decoding
(`decodeURIComponent`) recovers the original bytes exactly. -/
theorem encodeURL_decode_roundtrip (bytes : List Nat)
    (hb : ∀ b ∈ bytes, b < 256) :
    percentDecode (encodeURL bytes) = some bytes := by
  induction bytes with
  | nil => rfl
  | cons b rest ih =>
    rw [encodeURL_cons b (hb b (List.mem_cons_self b rest)) rest,
      percentDecode_encByteFull b (hb b (List.mem_cons_self b rest)),
      ih (fun x hx => hb x (List.mem_cons_of_mem b hx))]
    rfl

/-- Witness for C5 at a concrete input: the UTF-8 bytes of
`http://a/!'()*` — which contain all five of `! ' ( ) *` — survive the
encode/decode round-trip. -/
theorem encodeURL_decode_roundtrip_witness :
    (∀ b ∈ strBytes "http://a/!'()*", b < 256) ∧
    percentDecode (encodeURL (strBytes "http://a/!'()*")) =
      some (strBytes "http://a/!'()*") :=
  ⟨by decide, encodeURL_decode_roundtrip _ (by decide)⟩

end PowerTabs
